import Mathlib

/-!
Cache admission rules of caddy-cache (`rules.go`).

A shallow embedding of `rules.go`: the two cache rules, the request filter
`shouldUseCache` and the admission decision `getCacheableStatus`, followed by
the properties proved about them.

Modelling conventions.
* A Go `string` is a Lean `String`; `http.Header` (a `map[string][]string`) is
  an association list from keys to value lists, read with `List.lookup`.
* A `time.Time` is the instant it denotes, an `Int` count of nanoseconds from
  the Unix epoch (the location set by `.UTC()` does not change the instant),
  and a `time.Duration` is an `Int` count of nanoseconds.
* `time.Now()` is a clock: the `k`-th reading taken by the process is
  `clock k`, and the number of readings taken so far is part of the `World`.
* `cacheobject.UsingRequestResponse` is an external library: it is a
  parameter `oracle`, and every call made to it is appended to the `World`.
* A Go run-time panic is the `Except.error` result.
* Pointers are non-nil: the request, its URL, the configuration and every
  rule of the configuration are values.
-/

namespace CaddyCache

/-- Instant of a `time.Time`, in nanoseconds from the Unix epoch. -/
abbrev Time := Int

/-- Length of a `time.Duration`, in nanoseconds. -/
abbrev Duration := Int

/-- Value of a Go `error` (`none` is `nil`). -/
abbrev GoError := Option String

/-- Map `http.Header`: keys with their lists of values. -/
abbrev Header := List (String × List String)

/-- Token bytes of RFC 7230, as `validHeaderFieldByte` of `net/textproto`:
letters, digits and the punctuation of a header field name. -/
def validHeaderFieldByte (c : Char) : Bool :=
  c.isAlphanum ||
    [33, 35, 36, 37, 38, 39, 42, 43, 45, 46, 94, 95, 96, 124, 126].contains c.toNat

/-- Second loop of `canonicalMIMEHeaderKey` of `net/textproto`: upper case for
the first letter and for a letter after a dash, lower case elsewhere. -/
def canonicalizeBytes : Bool → List Char → List Char
  | _, [] => []
  | upper, c :: cs =>
    let c1 :=
      if upper && c.isLower then c.toUpper
      else if !upper && c.isUpper then c.toLower
      else c
    c1 :: canonicalizeBytes (c1 == '-') cs

/-- Function `textproto.CanonicalMIMEHeaderKey`: a key made of token bytes
only is put in canonical case, any other key is returned unchanged. -/
def CanonicalMIMEHeaderKey (s : String) : String :=
  if s.data.all validHeaderFieldByte then String.mk (canonicalizeBytes true s.data) else s

/-- Method `http.Header.Get`: the first value stored under the canonical form
of `key`, or the empty string when there is none. -/
def Header.Get (h : Header) (key : String) : String :=
  match h.lookup (CanonicalMIMEHeaderKey key) with
  | some (v :: _) => v
  | _ => ""

/-- Fields of `*http.Request` read by `rules.go`: `Method`, `URL.Path`
and `Header`. -/
structure Request where
  Method : String
  Path : String
  Header : Header
  deriving DecidableEq, Repr

/-- Function `strings.HasPrefix`:
`len(s) >= len(pre) && s[:len(pre)] == pre`, on the characters of the two
strings (for well-formed UTF-8 a prefix in bytes is a prefix in characters). -/
def HasPrefix (s pre : String) : Bool :=
  decide (s.data.length ≥ pre.data.length) && (s.data.take pre.data.length == pre.data)

/-- Implementations of the interface `CacheRule`: `PathCacheRule{Path}` and
`HeaderCacheRule{Header, Value}`. -/
inductive CacheRule where
  | PathCacheRule (Path : String)
  | HeaderCacheRule (Header : String) (Value : List String)
  deriving DecidableEq, Repr

/-- Loop of `HeaderCacheRule.matches`: `true` at the first expected value
equal to `headerValue`, `false` when the range is exhausted. -/
def headerValueLoop (headerValue : String) : List String → Bool
  | [] => false
  | expectedValue :: rest =>
    if expectedValue = headerValue then true else headerValueLoop headerValue rest

/-- Method `matches` of both rules. -/
def CacheRule.matches (rule : CacheRule) (req : Request) (_statusCode : Int)
    (respHeaders : Header) : Bool :=
  match rule with
  | .PathCacheRule path => HasPrefix req.Path path
  | .HeaderCacheRule header value => headerValueLoop (respHeaders.Get header) value

/-- Function `shouldUseCache`. -/
def shouldUseCache (req : Request) : Bool :=
  if req.Method ≠ "GET" ∧ req.Method ≠ "HEAD" then false
  else if req.Header.Get "accept-ranges" ≠ "" then false
  else true

/-- Fields of `Config` read by `getCacheableStatus`. -/
structure Config where
  DefaultMaxAge : Duration
  CacheRules : List CacheRule
  deriving DecidableEq, Repr

/-- Results of `cacheobject.UsingRequestResponse`: the reasons not to cache,
the expiration and the error. -/
structure OracleResult where
  reasonsNotToCache : List Nat
  expiration : Time
  err : GoError
  deriving DecidableEq, Repr

/-- Arguments of one call of `cacheobject.UsingRequestResponse`; `flag` is
its boolean fourth argument. -/
structure OracleCall where
  req : Request
  statusCode : Int
  respHeaders : Header
  flag : Bool
  deriving DecidableEq, Repr

/-- Library function `cacheobject.UsingRequestResponse`, a parameter. -/
abbrev Oracle := Request → Int → Header → Bool → OracleResult

/-- Effects visible from `rules.go`: how many times `time.Now()` has been
read and which calls the oracle has received. -/
structure World where
  clockReads : Nat
  oracleCalls : List OracleCall
  deriving DecidableEq, Repr

/-- Run-time panics of Go that `rules.go` can raise on the modelled inputs. -/
inductive Fault where
  | indexOutOfRange
  deriving DecidableEq, Repr

/-- Three results of `getCacheableStatus`: `(bool, time.Time, error)`. -/
structure Decision where
  cacheable : Bool
  expiresAt : Time
  err : GoError
  deriving DecidableEq, Repr

instance : DecidableEq (Except Fault Decision)
  | .ok a, .ok b => if h : a = b then isTrue (h ▸ rfl) else isFalse (fun h1 => h (Except.ok.inj h1))
  | .error a, .error b =>
    if h : a = b then isTrue (h ▸ rfl) else isFalse (fun h1 => h (Except.error.inj h1))
  | .ok _, .error _ => isFalse (fun h => Except.noConfusion h)
  | .error _, .ok _ => isFalse (fun h => Except.noConfusion h)

/-- Call `time.Now()`: the next reading of the clock. -/
def timeNow (clock : Nat → Time) (w : World) : Time × World :=
  (clock w.clockReads, { w with clockReads := w.clockReads + 1 })

/-- Condition `ok && varyHeaders[0] == "*"` on `respHeaders["Vary"]`: the
index panics when the key is present with no value. -/
def varyIsStar (respHeaders : Header) : Except Fault Bool :=
  match respHeaders.lookup "Vary" with
  | none => .ok false
  | some [] => .error .indexOutOfRange
  | some (v :: _) => .ok (v == "*")

/-- Loop over `config.CacheRules`: `true` and `break` at the first rule that
matches. -/
def anyCacheRulesMatches (req : Request) (statusCode : Int) (respHeaders : Header) :
    List CacheRule → Bool
  | [] => false
  | rule :: rest =>
    if rule.matches req statusCode respHeaders then true
    else anyCacheRulesMatches req statusCode respHeaders rest

/-- Function `getCacheableStatus`. -/
def getCacheableStatus (oracle : Oracle) (clock : Nat → Time) (w : World)
    (req : Request) (statusCode : Int) (respHeaders : Header) (config : Config) :
    Except Fault Decision × World :=
  let r := oracle req statusCode respHeaders false
  let w0 : World :=
    { w with oracleCalls := w.oracleCalls ++ [⟨req, statusCode, respHeaders, false⟩] }
  match r.err with
  | some e =>
    let (now, w1) := timeNow clock w0
    (.ok ⟨false, now, some e⟩, w1)
  | none =>
    let canBeStored := r.reasonsNotToCache.length == 0
    if !canBeStored then
      let (now, w1) := timeNow clock w0
      (.ok ⟨false, now, none⟩, w1)
    else
      match varyIsStar respHeaders with
      | .error f => (.error f, w0)
      | .ok true =>
        let (now, w1) := timeNow clock w0
        (.ok ⟨false, now, none⟩, w1)
      | .ok false =>
        let (now, w1) := timeNow clock w0
        let hasExplicitExpiration := decide (now < r.expiration)
        let (expiration, w2) :=
          if !hasExplicitExpiration then
            let (now2, w2) := timeNow clock w1
            (now2 + config.DefaultMaxAge, w2)
          else (r.expiration, w1)
        let anyMatches := anyCacheRulesMatches req statusCode respHeaders config.CacheRules
        (.ok ⟨anyMatches || hasExplicitExpiration, expiration, none⟩, w2)

/-- World left by a call that read the clock `k` times. -/
def worldAfter (w : World) (req : Request) (statusCode : Int) (respHeaders : Header)
    (k : Nat) : World :=
  ⟨w.clockReads + k, w.oracleCalls ++ [⟨req, statusCode, respHeaders, false⟩]⟩

/-- Decision of `getCacheableStatus` as a function of what it reads: the
oracle's result, the Vary check, two clock readings, `DefaultMaxAge` and the
outcome of the rule loop. -/
def decisionFrom (r : OracleResult) (vary : Except Fault Bool) (t1 t2 : Time)
    (maxAge : Duration) (anyMatches : Bool) : Except Fault Decision :=
  match r.err with
  | some e => .ok ⟨false, t1, some e⟩
  | none =>
    if r.reasonsNotToCache = [] then
      match vary with
      | .error f => .error f
      | .ok true => .ok ⟨false, t1, none⟩
      | .ok false =>
        .ok ⟨anyMatches || decide (t1 < r.expiration),
          if t1 < r.expiration then r.expiration else t2 + maxAge, none⟩
    else .ok ⟨false, t1, none⟩

/-! Auxiliary lemmas. -/

theorem canonical_accept_ranges : CanonicalMIMEHeaderKey "accept-ranges" = "Accept-Ranges" := by
  decide

theorem headerValueLoop_iff (headerValue : String) (value : List String) :
    headerValueLoop headerValue value = true ↔ headerValue ∈ value := by
  induction value with
  | nil => simp [headerValueLoop]
  | cons x xs ih =>
    unfold headerValueLoop
    by_cases hx : x = headerValue
    · simp [hx]
    · have hx1 : ¬ headerValue = x := fun h => hx h.symm
      simp [hx, hx1, ih]

theorem HasPrefix_iff_isPrefix (s pre : String) :
    HasPrefix s pre = true ↔ pre.data <+: s.data := by
  unfold HasPrefix
  constructor
  · intro h
    simp only [Bool.and_eq_true, decide_eq_true_eq, beq_iff_eq] at h
    have hs := List.take_append_drop pre.data.length s.data
    rw [h.2] at hs
    exact ⟨s.data.drop pre.data.length, hs⟩
  · rintro ⟨t, ht⟩
    simp only [Bool.and_eq_true, decide_eq_true_eq, beq_iff_eq]
    rw [← ht]
    simp

theorem anyCacheRulesMatches_eq_any (req : Request) (statusCode : Int) (respHeaders : Header)
    (rules : List CacheRule) :
    anyCacheRulesMatches req statusCode respHeaders rules
      = rules.any (fun rule => rule.matches req statusCode respHeaders) := by
  induction rules with
  | nil => rfl
  | cons x xs ih =>
    unfold anyCacheRulesMatches
    by_cases hx : x.matches req statusCode respHeaders = true
    · simp [hx]
    · simp [hx, ih]

theorem anyCacheRulesMatches_iff (req : Request) (statusCode : Int) (respHeaders : Header)
    (rules : List CacheRule) :
    anyCacheRulesMatches req statusCode respHeaders rules = true
      ↔ ∃ rule ∈ rules, rule.matches req statusCode respHeaders = true := by
  rw [anyCacheRulesMatches_eq_any]
  simp

theorem getCacheableStatus_of_err (oracle : Oracle) (clock : Nat → Time) (w : World)
    (req : Request) (statusCode : Int) (respHeaders : Header) (config : Config) (e : String)
    (he : (oracle req statusCode respHeaders false).err = some e) :
    getCacheableStatus oracle clock w req statusCode respHeaders config
      = (.ok ⟨false, clock w.clockReads, some e⟩,
          worldAfter w req statusCode respHeaders 1) := by
  simp [getCacheableStatus, he, timeNow, worldAfter]

theorem getCacheableStatus_of_reasons (oracle : Oracle) (clock : Nat → Time) (w : World)
    (req : Request) (statusCode : Int) (respHeaders : Header) (config : Config)
    (he : (oracle req statusCode respHeaders false).err = none)
    (hr : (oracle req statusCode respHeaders false).reasonsNotToCache ≠ []) :
    getCacheableStatus oracle clock w req statusCode respHeaders config
      = (.ok ⟨false, clock w.clockReads, none⟩,
          worldAfter w req statusCode respHeaders 1) := by
  simp [getCacheableStatus, he, hr, timeNow, worldAfter]

theorem getCacheableStatus_of_vary_fault (oracle : Oracle) (clock : Nat → Time) (w : World)
    (req : Request) (statusCode : Int) (respHeaders : Header) (config : Config)
    (he : (oracle req statusCode respHeaders false).err = none)
    (hr : (oracle req statusCode respHeaders false).reasonsNotToCache = [])
    (f : Fault) (hv : varyIsStar respHeaders = .error f) :
    getCacheableStatus oracle clock w req statusCode respHeaders config
      = (.error f, worldAfter w req statusCode respHeaders 0) := by
  simp [getCacheableStatus, he, hr, hv, worldAfter]

theorem getCacheableStatus_of_vary_star (oracle : Oracle) (clock : Nat → Time) (w : World)
    (req : Request) (statusCode : Int) (respHeaders : Header) (config : Config)
    (he : (oracle req statusCode respHeaders false).err = none)
    (hr : (oracle req statusCode respHeaders false).reasonsNotToCache = [])
    (hv : varyIsStar respHeaders = .ok true) :
    getCacheableStatus oracle clock w req statusCode respHeaders config
      = (.ok ⟨false, clock w.clockReads, none⟩,
          worldAfter w req statusCode respHeaders 1) := by
  simp [getCacheableStatus, he, hr, hv, timeNow, worldAfter]

theorem getCacheableStatus_of_explicit (oracle : Oracle) (clock : Nat → Time) (w : World)
    (req : Request) (statusCode : Int) (respHeaders : Header) (config : Config)
    (he : (oracle req statusCode respHeaders false).err = none)
    (hr : (oracle req statusCode respHeaders false).reasonsNotToCache = [])
    (hv : varyIsStar respHeaders = .ok false)
    (hx : clock w.clockReads < (oracle req statusCode respHeaders false).expiration) :
    getCacheableStatus oracle clock w req statusCode respHeaders config
      = (.ok ⟨true, (oracle req statusCode respHeaders false).expiration, none⟩,
          worldAfter w req statusCode respHeaders 1) := by
  simp [getCacheableStatus, he, hr, hv, hx, timeNow, worldAfter]

theorem getCacheableStatus_of_fallback (oracle : Oracle) (clock : Nat → Time) (w : World)
    (req : Request) (statusCode : Int) (respHeaders : Header) (config : Config)
    (he : (oracle req statusCode respHeaders false).err = none)
    (hr : (oracle req statusCode respHeaders false).reasonsNotToCache = [])
    (hv : varyIsStar respHeaders = .ok false)
    (hx : ¬ clock w.clockReads < (oracle req statusCode respHeaders false).expiration) :
    getCacheableStatus oracle clock w req statusCode respHeaders config
      = (.ok ⟨anyCacheRulesMatches req statusCode respHeaders config.CacheRules,
            clock (w.clockReads + 1) + config.DefaultMaxAge, none⟩,
          worldAfter w req statusCode respHeaders 2) := by
  simp [getCacheableStatus, he, hr, hv, hx, timeNow, worldAfter]

theorem varyIsStar_of_absent (respHeaders : Header) (h : respHeaders.lookup "Vary" = none) :
    varyIsStar respHeaders = .ok false := by
  simp [varyIsStar, h]

theorem varyIsStar_of_first (respHeaders : Header) (v : String) (rest : List String)
    (h : respHeaders.lookup "Vary" = some (v :: rest)) :
    varyIsStar respHeaders = .ok (v == "*") := by
  simp [varyIsStar, h]

theorem varyIsStar_of_empty (respHeaders : Header) (h : respHeaders.lookup "Vary" = some []) :
    varyIsStar respHeaders = .error .indexOutOfRange := by
  simp [varyIsStar, h]

theorem varyIsStar_of_not_star (respHeaders : Header)
    (hv : respHeaders.lookup "Vary" = none ∨
      ∃ v rest, respHeaders.lookup "Vary" = some (v :: rest) ∧ v ≠ "*") :
    varyIsStar respHeaders = .ok false := by
  rcases hv with h | ⟨v, rest, h, hne⟩
  · exact varyIsStar_of_absent respHeaders h
  · rw [varyIsStar_of_first respHeaders v rest h]
    simp [hne]

theorem getCacheableStatus_oracleCalls (oracle : Oracle) (clock : Nat → Time) (w : World)
    (req : Request) (statusCode : Int) (respHeaders : Header) (config : Config) :
    (getCacheableStatus oracle clock w req statusCode respHeaders config).2.oracleCalls
      = w.oracleCalls ++ [⟨req, statusCode, respHeaders, false⟩] := by
  cases he : (oracle req statusCode respHeaders false).err with
  | some e => rw [getCacheableStatus_of_err _ _ _ _ _ _ _ e he]; rfl
  | none =>
    by_cases hr : (oracle req statusCode respHeaders false).reasonsNotToCache = []
    · cases hv : varyIsStar respHeaders with
      | error f => rw [getCacheableStatus_of_vary_fault _ _ _ _ _ _ _ he hr f hv]; rfl
      | ok b =>
        cases b with
        | true => rw [getCacheableStatus_of_vary_star _ _ _ _ _ _ _ he hr hv]; rfl
        | false =>
          by_cases hx : clock w.clockReads < (oracle req statusCode respHeaders false).expiration
          · rw [getCacheableStatus_of_explicit _ _ _ _ _ _ _ he hr hv hx]; rfl
          · rw [getCacheableStatus_of_fallback _ _ _ _ _ _ _ he hr hv hx]; rfl
    · rw [getCacheableStatus_of_reasons _ _ _ _ _ _ _ he hr]; rfl

theorem getCacheableStatus_decision (oracle : Oracle) (clock : Nat → Time) (w : World)
    (req : Request) (statusCode : Int) (respHeaders : Header) (config : Config) :
    (getCacheableStatus oracle clock w req statusCode respHeaders config).1
      = decisionFrom (oracle req statusCode respHeaders false) (varyIsStar respHeaders)
          (clock w.clockReads) (clock (w.clockReads + 1)) config.DefaultMaxAge
          (anyCacheRulesMatches req statusCode respHeaders config.CacheRules) := by
  cases he : (oracle req statusCode respHeaders false).err with
  | some e =>
    rw [getCacheableStatus_of_err _ _ _ _ _ _ _ e he]
    simp [decisionFrom, he]
  | none =>
    by_cases hr : (oracle req statusCode respHeaders false).reasonsNotToCache = []
    · cases hv : varyIsStar respHeaders with
      | error f =>
        rw [getCacheableStatus_of_vary_fault _ _ _ _ _ _ _ he hr f hv]
        simp [decisionFrom, he, hr]
      | ok b =>
        cases b with
        | true =>
          rw [getCacheableStatus_of_vary_star _ _ _ _ _ _ _ he hr hv]
          simp [decisionFrom, he, hr]
        | false =>
          by_cases hx : clock w.clockReads < (oracle req statusCode respHeaders false).expiration
          · rw [getCacheableStatus_of_explicit _ _ _ _ _ _ _ he hr hv hx]
            simp [decisionFrom, he, hr, hx]
          · rw [getCacheableStatus_of_fallback _ _ _ _ _ _ _ he hr hv hx]
            simp [decisionFrom, he, hr, hx]
    · rw [getCacheableStatus_of_reasons _ _ _ _ _ _ _ he hr]
      simp [decisionFrom, he, hr]

theorem decisionFrom_map_any (r : OracleResult) (vary : Except Fault Bool) (t1 t2 : Time)
    (maxAge : Duration) (a1 a2 : Bool) :
    (decisionFrom r vary t1 t2 maxAge a1).map (fun d => (d.expiresAt, d.err))
      = (decisionFrom r vary t1 t2 maxAge a2).map (fun d => (d.expiresAt, d.err)) := by
  unfold decisionFrom
  cases r.err with
  | some e => rfl
  | none =>
    by_cases hr : r.reasonsNotToCache = []
    · simp only [hr, if_true]
      cases vary with
      | error f => rfl
      | ok b => cases b <;> rfl
    · simp only [hr, if_false]

theorem decisionFrom_mono (r : OracleResult) (vary : Except Fault Bool) (t1 t2 : Time)
    (maxAge : Duration) (a1 a2 : Bool) (h : a1 = true → a2 = true) (d : Decision)
    (hd : decisionFrom r vary t1 t2 maxAge a1 = .ok d) (hc : d.cacheable = true) :
    decisionFrom r vary t1 t2 maxAge a2 = .ok ⟨true, d.expiresAt, d.err⟩ := by
  unfold decisionFrom at hd ⊢
  cases he : r.err with
  | some e =>
    simp only [he] at hd
    have hd1 := Except.ok.inj hd
    subst hd1
    cases hc
  | none =>
    simp only [he] at hd ⊢
    by_cases hr : r.reasonsNotToCache = []
    · simp only [hr, if_true] at hd ⊢
      cases vary with
      | error f => cases hd
      | ok b =>
        cases b with
        | true =>
          have hd1 := Except.ok.inj hd
          subst hd1
          cases hc
        | false =>
          have hd1 := Except.ok.inj hd
          subst hd1
          have hc2 : (a2 || decide (t1 < r.expiration)) = true := by
            simp only [Bool.or_eq_true] at hc ⊢
            exact hc.imp h id
          simp only [hc2]
    · simp only [hr, if_false] at hd
      have hd1 := Except.ok.inj hd
      subst hd1
      cases hc

theorem decisionFrom_expiresAt (r : OracleResult) (vary : Except Fault Bool) (t1 t2 : Time)
    (maxAge : Duration) (a : Bool) (d : Decision)
    (hd : decisionFrom r vary t1 t2 maxAge a = .ok d) :
    (r.err = none → r.reasonsNotToCache = [] → vary = .ok false →
      d.expiresAt = if t1 < r.expiration then r.expiration else t2 + maxAge) ∧
    (r.err ≠ none ∨ r.reasonsNotToCache ≠ [] ∨ vary = .ok true → d.expiresAt = t1) := by
  unfold decisionFrom at hd
  constructor
  · intro he hr hv
    simp only [he, hr, hv, if_true] at hd
    have hd1 := Except.ok.inj hd
    subst hd1
    rfl
  · intro h
    cases he : r.err with
    | some e =>
      simp only [he] at hd
      have hd1 := Except.ok.inj hd
      subst hd1
      rfl
    | none =>
      simp only [he] at hd
      by_cases hr : r.reasonsNotToCache = []
      · rcases h with h | h | h
        · exact absurd he h
        · exact absurd hr h
        · simp only [hr, h, if_true] at hd
          have hd1 := Except.ok.inj hd
          subst hd1
          rfl
      · simp only [hr, if_false] at hd
        have hd1 := Except.ok.inj hd
        subst hd1
        rfl

theorem Get_eq_of_lookup_cons (h : Header) (key v : String) (rest : List String)
    (hl : h.lookup (CanonicalMIMEHeaderKey key) = some (v :: rest)) : h.Get key = v := by
  simp [Header.Get, hl]

theorem Get_eq_of_lookup_none (h : Header) (key : String)
    (hl : h.lookup (CanonicalMIMEHeaderKey key) = none) : h.Get key = "" := by
  simp [Header.Get, hl]

theorem Get_eq_of_lookup_nil (h : Header) (key : String)
    (hl : h.lookup (CanonicalMIMEHeaderKey key) = some []) : h.Get key = "" := by
  simp [Header.Get, hl]

theorem Get_ne_empty_iff (h : Header) (key : String) :
    h.Get key ≠ "" ↔
      ∃ v rest, h.lookup (CanonicalMIMEHeaderKey key) = some (v :: rest) ∧ v ≠ "" := by
  cases hl : h.lookup (CanonicalMIMEHeaderKey key) with
  | none => simp [Header.Get, hl]
  | some vs =>
    cases vs with
    | nil => simp [Header.Get, hl]
    | cons v rest => simp [Header.Get, hl]

/-! The request filter and the rules. -/

/-- C8 (as stated, refuted): a GET request whose `Accept-Ranges` header is
`["", "bytes"]` carries the non-empty value `bytes`, yet `shouldUseCache`
returns true: only the first value is read. -/
theorem later_accept_ranges_value_not_read :
    (⟨"GET", "/", [("Accept-Ranges", ["", "bytes"])]⟩ : Request).Header.lookup "Accept-Ranges"
      = some ["", "bytes"] ∧
    "bytes" ∈ ["", "bytes"] ∧ "bytes" ≠ "" ∧
    shouldUseCache ⟨"GET", "/", [("Accept-Ranges", ["", "bytes"])]⟩ = true := by
  decide

/-- C8 (amended): `shouldUseCache` returns false exactly when the method is
neither GET nor HEAD or the first value of the request's Accept-Ranges header
(the value `Header.Get` reads under the canonical key `Accept-Ranges`) is not
empty, and true for every other request. -/
theorem shouldUseCache_false_iff (req : Request) :
    (shouldUseCache req = false ↔
      (req.Method ≠ "GET" ∧ req.Method ≠ "HEAD") ∨ req.Header.Get "accept-ranges" ≠ "") ∧
    (shouldUseCache req = true ↔
      (req.Method = "GET" ∨ req.Method = "HEAD") ∧ req.Header.Get "accept-ranges" = "") ∧
    (req.Header.Get "accept-ranges" ≠ "" ↔
      ∃ v rest, req.Header.lookup "Accept-Ranges" = some (v :: rest) ∧ v ≠ "") := by
  have h1 : shouldUseCache req = false ↔
      (req.Method ≠ "GET" ∧ req.Method ≠ "HEAD") ∨ req.Header.Get "accept-ranges" ≠ "" := by
    unfold shouldUseCache
    by_cases hm : req.Method ≠ "GET" ∧ req.Method ≠ "HEAD"
    · simp [hm]
    · by_cases ha : req.Header.Get "accept-ranges" ≠ ""
      · simp [ha]
      · simp [hm, ha]
  refine ⟨h1, ?_, ?_⟩
  · rw [← Bool.not_eq_false, h1]
    tauto
  · have h := Get_ne_empty_iff req.Header "accept-ranges"
    rw [canonical_accept_ranges] at h
    exact h

/-- C9: a header rule matches exactly when the value `Header.Get` reads for
the named response header (its first value) is one of the allowed values; an
absent header is read as the empty string, so the rule then matches only if
the empty string is allowed; a rule with no allowed value never matches. -/
theorem headerRule_matches_iff (header : String) (value : List String) (req : Request)
    (statusCode : Int) (respHeaders : Header) :
    ((CacheRule.HeaderCacheRule header value).matches req statusCode respHeaders = true ↔
      respHeaders.Get header ∈ value) ∧
    (∀ v rest, respHeaders.lookup (CanonicalMIMEHeaderKey header) = some (v :: rest) →
      ((CacheRule.HeaderCacheRule header value).matches req statusCode respHeaders = true ↔
        v ∈ value)) ∧
    (respHeaders.lookup (CanonicalMIMEHeaderKey header) = none →
      ((CacheRule.HeaderCacheRule header value).matches req statusCode respHeaders = true ↔
        "" ∈ value)) ∧
    (CacheRule.HeaderCacheRule header []).matches req statusCode respHeaders = false := by
  refine ⟨?_, ?_, ?_, ?_⟩
  · exact headerValueLoop_iff _ _
  · intro v rest hl
    simp only [CacheRule.matches, Get_eq_of_lookup_cons _ _ v rest hl]
    exact headerValueLoop_iff _ _
  · intro hl
    simp only [CacheRule.matches, Get_eq_of_lookup_none _ _ hl]
    exact headerValueLoop_iff _ _
  · rfl

/-- C10: a path rule matches exactly when the configured path is a literal
string prefix of the request path, whatever the status code and the response
headers; the rule with the empty path matches every request. -/
theorem pathRule_matches_iff (path : String) (req : Request) (statusCode : Int)
    (respHeaders : Header) :
    ((CacheRule.PathCacheRule path).matches req statusCode respHeaders = true ↔
      ∃ t : String, req.Path = path ++ t) ∧
    (∀ (statusCode2 : Int) (respHeaders2 : Header),
      (CacheRule.PathCacheRule path).matches req statusCode2 respHeaders2
        = (CacheRule.PathCacheRule path).matches req statusCode respHeaders) ∧
    (CacheRule.PathCacheRule "").matches req statusCode respHeaders = true := by
  refine ⟨?_, fun _ _ => rfl, ?_⟩
  · simp only [CacheRule.matches, HasPrefix_iff_isPrefix]
    constructor
    · rintro ⟨t, ht⟩
      exact ⟨String.mk t, String.ext (by simp [← ht])⟩
    · rintro ⟨t, ht⟩
      exact ⟨t.data, by simp [ht]⟩
  · simp only [CacheRule.matches, HasPrefix_iff_isPrefix]
    exact ⟨req.Path.data, rfl⟩

/-! The admission decision. -/

/-- C1 (as stated, refuted): `getCacheableStatus` does not apply the request
filter. A POST request and a GET request with `Accept-Ranges: bytes` both
fail `shouldUseCache`, yet with an oracle that reports no reason and an
expiration (1000) after the clock (10) both decisions are cacheable, and the
oracle has been called. -/
theorem getCacheableStatus_does_not_filter :
    shouldUseCache ⟨"POST", "/", []⟩ = false ∧
    getCacheableStatus (fun _ _ _ _ => ⟨[], 1000, none⟩) (fun _ => 10) ⟨0, []⟩
        ⟨"POST", "/", []⟩ 200 [] ⟨60, []⟩
      = (.ok ⟨true, 1000, none⟩, ⟨1, [⟨⟨"POST", "/", []⟩, 200, [], false⟩]⟩) ∧
    shouldUseCache ⟨"GET", "/", [("Accept-Ranges", ["bytes"])]⟩ = false ∧
    getCacheableStatus (fun _ _ _ _ => ⟨[], 1000, none⟩) (fun _ => 10) ⟨0, []⟩
        ⟨"GET", "/", [("Accept-Ranges", ["bytes"])]⟩ 200 [] ⟨60, []⟩
      = (.ok ⟨true, 1000, none⟩,
          ⟨1, [⟨⟨"GET", "/", [("Accept-Ranges", ["bytes"])]⟩, 200, [], false⟩]⟩) := by
  decide

/-- C1 (amended): for a request that fails the request filter it is
`shouldUseCache` that returns false. The function `getCacheableStatus` does
not apply the filter: for such a request too it calls the oracle exactly
once, with the flag false, and decides as for any other request. It returns
cacheable false when the oracle returns an error or a reason or the first
Vary value is `*`; and when the oracle returns no error and no reason and the
Vary check passes, it returns a nil error and is cacheable exactly when a
rule matches or the oracle's expiration is strictly after the clock
reading. -/
theorem filter_rejects_in_shouldUseCache (req : Request)
    (hf : (req.Method ≠ "GET" ∧ req.Method ≠ "HEAD") ∨ req.Header.Get "accept-ranges" ≠ "") :
    shouldUseCache req = false ∧
    ∀ (oracle : Oracle) (clock : Nat → Time) (w : World) (statusCode : Int)
      (respHeaders : Header) (config : Config),
      (getCacheableStatus oracle clock w req statusCode respHeaders config).2.oracleCalls
        = w.oracleCalls ++ [⟨req, statusCode, respHeaders, false⟩] ∧
      ((oracle req statusCode respHeaders false).err ≠ none ∨
          (oracle req statusCode respHeaders false).reasonsNotToCache ≠ [] ∨
          (∃ rest, respHeaders.lookup "Vary" = some ("*" :: rest)) →
        ∃ d, (getCacheableStatus oracle clock w req statusCode respHeaders config).1 = .ok d ∧
          d.cacheable = false) ∧
      ((oracle req statusCode respHeaders false).err = none →
        (oracle req statusCode respHeaders false).reasonsNotToCache = [] →
        (respHeaders.lookup "Vary" = none ∨
          ∃ v rest, respHeaders.lookup "Vary" = some (v :: rest) ∧ v ≠ "*") →
        ∃ d, (getCacheableStatus oracle clock w req statusCode respHeaders config).1 = .ok d ∧
          d.err = none ∧
          (d.cacheable = true ↔
            (∃ rule ∈ config.CacheRules, rule.matches req statusCode respHeaders = true) ∨
              clock w.clockReads < (oracle req statusCode respHeaders false).expiration)) := by
  constructor
  · unfold shouldUseCache
    rcases hf with hm | ha
    · simp [hm]
    · by_cases hm : req.Method ≠ "GET" ∧ req.Method ≠ "HEAD"
      · simp [hm]
      · simp [ha]
  · intro oracle clock w statusCode respHeaders config
    refine ⟨getCacheableStatus_oracleCalls oracle clock w req statusCode respHeaders config,
      ?_, ?_⟩
    · intro hg
      cases he : (oracle req statusCode respHeaders false).err with
      | some e =>
        rw [getCacheableStatus_of_err _ _ _ _ _ _ _ e he]
        exact ⟨_, rfl, rfl⟩
      | none =>
        by_cases hr : (oracle req statusCode respHeaders false).reasonsNotToCache = []
        · rcases hg with h | h | ⟨rest, h⟩
          · exact absurd he h
          · exact absurd hr h
          · have hv : varyIsStar respHeaders = .ok true := by
              rw [varyIsStar_of_first respHeaders "*" rest h]; rfl
            rw [getCacheableStatus_of_vary_star _ _ _ _ _ _ _ he hr hv]
            exact ⟨_, rfl, rfl⟩
        · rw [getCacheableStatus_of_reasons _ _ _ _ _ _ _ he hr]
          exact ⟨_, rfl, rfl⟩
    · intro he hr hv
      have hv1 := varyIsStar_of_not_star respHeaders hv
      by_cases hx : clock w.clockReads < (oracle req statusCode respHeaders false).expiration
      · rw [getCacheableStatus_of_explicit _ _ _ _ _ _ _ he hr hv1 hx]
        exact ⟨_, rfl, rfl, by simp [hx]⟩
      · rw [getCacheableStatus_of_fallback _ _ _ _ _ _ _ he hr hv1 hx]
        refine ⟨_, rfl, rfl, ?_⟩
        simp only [anyCacheRulesMatches_iff, hx, or_false]

/-- Witness of `filter_rejects_in_shouldUseCache` at a POST request, with an
oracle expiration (1000) after the clock (10): the filter rejects the request,
the oracle is called, and the decision is cacheable exactly when a rule
matches or 10 < 1000. -/
theorem filter_rejects_in_shouldUseCache_witness :
    shouldUseCache ⟨"POST", "/", []⟩ = false ∧
    (getCacheableStatus (fun _ _ _ _ => ⟨[], 1000, none⟩) (fun _ => 10) ⟨0, []⟩
        ⟨"POST", "/", []⟩ 200 [] ⟨60, []⟩).2.oracleCalls
      = [] ++ [⟨⟨"POST", "/", []⟩, 200, [], false⟩] ∧
    ∃ d, (getCacheableStatus (fun _ _ _ _ => ⟨[], 1000, none⟩) (fun _ => 10) ⟨0, []⟩
        ⟨"POST", "/", []⟩ 200 [] ⟨60, []⟩).1 = .ok d ∧
      d.err = none ∧
      (d.cacheable = true ↔
        (∃ rule ∈ ([] : List CacheRule), rule.matches ⟨"POST", "/", []⟩ 200 [] = true) ∨
          (10 : Int) < 1000) :=
  ⟨(filter_rejects_in_shouldUseCache ⟨"POST", "/", []⟩ (Or.inl (by decide))).1,
    ((filter_rejects_in_shouldUseCache ⟨"POST", "/", []⟩ (Or.inl (by decide))).2
      (fun _ _ _ _ => ⟨[], 1000, none⟩) (fun _ => 10) ⟨0, []⟩ 200 [] ⟨60, []⟩).1,
    ((filter_rejects_in_shouldUseCache ⟨"POST", "/", []⟩ (Or.inl (by decide))).2
      (fun _ _ _ _ => ⟨[], 1000, none⟩) (fun _ => 10) ⟨0, []⟩ 200 [] ⟨60, []⟩).2.2
      rfl rfl (Or.inl rfl)⟩

/-- C2: when the oracle returns no error and no reason and the Vary check
passes (no Vary key, or a first value other than `*`), the decision is
returned and is cacheable exactly when some configured rule matches or the
oracle's expiration is strictly after the clock reading; so with no matching
rule and no such expiration it is not cacheable, whatever `DefaultMaxAge`. -/
theorem cacheable_iff_rule_or_explicit (oracle : Oracle) (clock : Nat → Time) (w : World)
    (req : Request) (statusCode : Int) (respHeaders : Header) (config : Config)
    (he : (oracle req statusCode respHeaders false).err = none)
    (hr : (oracle req statusCode respHeaders false).reasonsNotToCache = [])
    (hv : respHeaders.lookup "Vary" = none ∨
      ∃ v rest, respHeaders.lookup "Vary" = some (v :: rest) ∧ v ≠ "*") :
    ∃ d, (getCacheableStatus oracle clock w req statusCode respHeaders config).1 = .ok d ∧
      (d.cacheable = true ↔
        (∃ rule ∈ config.CacheRules, rule.matches req statusCode respHeaders = true) ∨
          clock w.clockReads < (oracle req statusCode respHeaders false).expiration) ∧
      ((∀ rule ∈ config.CacheRules, rule.matches req statusCode respHeaders = false) →
        ¬ clock w.clockReads < (oracle req statusCode respHeaders false).expiration →
        d.cacheable = false) := by
  have hv1 := varyIsStar_of_not_star respHeaders hv
  by_cases hx : clock w.clockReads < (oracle req statusCode respHeaders false).expiration
  · rw [getCacheableStatus_of_explicit _ _ _ _ _ _ _ he hr hv1 hx]
    exact ⟨_, rfl, by simp [hx], fun _ h => absurd hx h⟩
  · rw [getCacheableStatus_of_fallback _ _ _ _ _ _ _ he hr hv1 hx]
    refine ⟨_, rfl, ?_, ?_⟩
    · simp only [anyCacheRulesMatches_iff, hx, or_false]
    · intro hn _
      cases hm : anyCacheRulesMatches req statusCode respHeaders config.CacheRules with
      | false => rfl
      | true =>
        obtain ⟨rule, hmem, hrule⟩ := (anyCacheRulesMatches_iff _ _ _ _).mp hm
        rw [hn rule hmem] at hrule
        cases hrule

/-- Witness of `cacheable_iff_rule_or_explicit`: GET `/`, no header, the
rule `PathCacheRule{"/api"}`, an oracle with the epoch as expiration, the
clock at 10. -/
theorem cacheable_iff_rule_or_explicit_witness :
    ∃ d, (getCacheableStatus (fun _ _ _ _ => ⟨[], 0, none⟩) (fun _ => 10) ⟨0, []⟩
        ⟨"GET", "/", []⟩ 200 [] ⟨60, [.PathCacheRule "/api"]⟩).1 = .ok d ∧
      (d.cacheable = true ↔
        (∃ rule ∈ [CacheRule.PathCacheRule "/api"],
          rule.matches ⟨"GET", "/", []⟩ 200 [] = true) ∨ (10 : Int) < 0) ∧
      ((∀ rule ∈ [CacheRule.PathCacheRule "/api"],
          rule.matches ⟨"GET", "/", []⟩ 200 [] = false) →
        ¬ (10 : Int) < 0 → d.cacheable = false) :=
  cacheable_iff_rule_or_explicit (fun _ _ _ _ => ⟨[], 0, none⟩) (fun _ => 10) ⟨0, []⟩
    ⟨"GET", "/", []⟩ 200 [] ⟨60, [.PathCacheRule "/api"]⟩ rfl rfl (Or.inl rfl)

/-- C3: a response whose Vary header has first value `*` is never cacheable:
the decision is returned with cacheable false for every request, rule list
and oracle result. -/
theorem vary_star_not_cacheable (oracle : Oracle) (clock : Nat → Time) (w : World)
    (req : Request) (statusCode : Int) (respHeaders : Header) (config : Config)
    (rest : List String) (hv : respHeaders.lookup "Vary" = some ("*" :: rest)) :
    ∃ d, (getCacheableStatus oracle clock w req statusCode respHeaders config).1 = .ok d ∧
      d.cacheable = false := by
  have hv1 : varyIsStar respHeaders = .ok true := by
    rw [varyIsStar_of_first respHeaders "*" rest hv]; rfl
  cases he : (oracle req statusCode respHeaders false).err with
  | some e => rw [getCacheableStatus_of_err _ _ _ _ _ _ _ e he]; exact ⟨_, rfl, rfl⟩
  | none =>
    by_cases hr : (oracle req statusCode respHeaders false).reasonsNotToCache = []
    · rw [getCacheableStatus_of_vary_star _ _ _ _ _ _ _ he hr hv1]; exact ⟨_, rfl, rfl⟩
    · rw [getCacheableStatus_of_reasons _ _ _ _ _ _ _ he hr]; exact ⟨_, rfl, rfl⟩

/-- Witness of `vary_star_not_cacheable`: `Vary: *` with a matching path rule
and an oracle expiration after the clock. -/
theorem vary_star_not_cacheable_witness :
    ∃ d, (getCacheableStatus (fun _ _ _ _ => ⟨[], 1000, none⟩) (fun _ => 10) ⟨0, []⟩
        ⟨"GET", "/", []⟩ 200 [("Vary", ["*"])] ⟨60, [.PathCacheRule "/"]⟩).1 = .ok d ∧
      d.cacheable = false :=
  vary_star_not_cacheable (fun _ _ _ _ => ⟨[], 1000, none⟩) (fun _ => 10) ⟨0, []⟩
    ⟨"GET", "/", []⟩ 200 [("Vary", ["*"])] ⟨60, [.PathCacheRule "/"]⟩ [] rfl

/-- C4 (as stated, refuted): an oracle expiration (1000) strictly after the
clock (10) does not by itself make the decision cacheable: with an oracle
error, with a reason not to cache, and with `Vary: *`, the decision is not
cacheable and `expiresAt` is the clock reading, not the oracle's expiration. -/
theorem explicit_expiration_not_sufficient :
    (getCacheableStatus (fun _ _ _ _ => ⟨[], 1000, some "bad header"⟩) (fun _ => 10) ⟨0, []⟩
        ⟨"GET", "/", []⟩ 200 [] ⟨60, []⟩).1 = .ok ⟨false, 10, some "bad header"⟩ ∧
    (getCacheableStatus (fun _ _ _ _ => ⟨[7], 1000, none⟩) (fun _ => 10) ⟨0, []⟩
        ⟨"GET", "/", []⟩ 200 [] ⟨60, []⟩).1 = .ok ⟨false, 10, none⟩ ∧
    (getCacheableStatus (fun _ _ _ _ => ⟨[], 1000, none⟩) (fun _ => 10) ⟨0, []⟩
        ⟨"GET", "/", []⟩ 200 [("Vary", ["*"])] ⟨60, []⟩).1 = .ok ⟨false, 10, none⟩ := by
  decide

/-- C4 (amended): when the oracle returns no error and no reason, the Vary
check passes and the oracle's expiration is strictly after the clock reading,
the decision is cacheable with exactly the oracle's expiration and a nil
error, for every rule list and every `DefaultMaxAge`. -/
theorem explicit_expiration_cacheable (oracle : Oracle) (clock : Nat → Time) (w : World)
    (req : Request) (statusCode : Int) (respHeaders : Header) (config : Config)
    (he : (oracle req statusCode respHeaders false).err = none)
    (hr : (oracle req statusCode respHeaders false).reasonsNotToCache = [])
    (hv : respHeaders.lookup "Vary" = none ∨
      ∃ v rest, respHeaders.lookup "Vary" = some (v :: rest) ∧ v ≠ "*")
    (hx : clock w.clockReads < (oracle req statusCode respHeaders false).expiration) :
    (getCacheableStatus oracle clock w req statusCode respHeaders config).1
      = .ok ⟨true, (oracle req statusCode respHeaders false).expiration, none⟩ := by
  rw [getCacheableStatus_of_explicit _ _ _ _ _ _ _ he hr
    (varyIsStar_of_not_star respHeaders hv) hx]

/-- Witness of `explicit_expiration_cacheable`: `Vary: Accept-Encoding`, no
rule, an oracle expiration of 1000 and the clock at 10. -/
theorem explicit_expiration_cacheable_witness :
    (getCacheableStatus (fun _ _ _ _ => ⟨[], 1000, none⟩) (fun _ => 10) ⟨0, []⟩
        ⟨"GET", "/api/x", []⟩ 200 [("Vary", ["Accept-Encoding"])] ⟨60, []⟩).1
      = .ok ⟨true, 1000, none⟩ :=
  explicit_expiration_cacheable (fun _ _ _ _ => ⟨[], 1000, none⟩) (fun _ => 10) ⟨0, []⟩
    ⟨"GET", "/api/x", []⟩ 200 [("Vary", ["Accept-Encoding"])] ⟨60, []⟩ rfl rfl
    (Or.inr ⟨"Accept-Encoding", [], rfl, by decide⟩) (by decide)

/-- C5 (as stated, refuted): with clock readings 10 then 13, an oracle that
returns no error, no reason and the epoch as expiration (not after 10), no
Vary header, the matching rule `PathCacheRule{"/api"}` and `DefaultMaxAge` 60,
the decision is cacheable with `expiresAt` 73: not 10 + 60, the instant of the
comparison plus `DefaultMaxAge`. -/
theorem fallback_expiration_not_from_compared_instant :
    ¬ ((10 : Int) < 0) ∧
    CacheRule.matches (.PathCacheRule "/api") ⟨"HEAD", "/api/x", []⟩ 200 [] = true ∧
    (getCacheableStatus (fun _ _ _ _ => ⟨[], 0, none⟩) (fun k => if k = 0 then 10 else 13)
        ⟨0, []⟩ ⟨"HEAD", "/api/x", []⟩ 200 [] ⟨60, [.PathCacheRule "/api"]⟩).1
      = .ok ⟨true, 73, none⟩ ∧
    (73 : Int) ≠ 10 + 60 := by
  decide

/-- C5 (amended): when the oracle returns no error, no reason and an
expiration that is not strictly after the clock reading, the Vary check
passes and some configured rule matches, the decision is cacheable and
`expiresAt` is `time.Now() + DefaultMaxAge` for the reading of the clock taken
anew for the fallback; the oracle's expiration is discarded. When that reading
is the instant `now` of the comparison, this is `now + DefaultMaxAge`. -/
theorem rule_match_uses_default_max_age (oracle : Oracle) (clock : Nat → Time) (w : World)
    (req : Request) (statusCode : Int) (respHeaders : Header) (config : Config)
    (he : (oracle req statusCode respHeaders false).err = none)
    (hr : (oracle req statusCode respHeaders false).reasonsNotToCache = [])
    (hv : respHeaders.lookup "Vary" = none ∨
      ∃ v rest, respHeaders.lookup "Vary" = some (v :: rest) ∧ v ≠ "*")
    (hx : ¬ clock w.clockReads < (oracle req statusCode respHeaders false).expiration)
    (hm : ∃ rule ∈ config.CacheRules, rule.matches req statusCode respHeaders = true) :
    (getCacheableStatus oracle clock w req statusCode respHeaders config).1
        = .ok ⟨true, clock (w.clockReads + 1) + config.DefaultMaxAge, none⟩ ∧
    ∀ now, clock w.clockReads = now → clock (w.clockReads + 1) = now →
      (getCacheableStatus oracle clock w req statusCode respHeaders config).1
        = .ok ⟨true, now + config.DefaultMaxAge, none⟩ := by
  have h := getCacheableStatus_of_fallback oracle clock w req statusCode respHeaders config
    he hr (varyIsStar_of_not_star respHeaders hv) hx
  rw [(anyCacheRulesMatches_iff _ _ _ _).mpr hm] at h
  refine ⟨by rw [h], fun now _ h2 => by rw [h, h2]⟩

/-- Witness of `rule_match_uses_default_max_age`: HEAD `/api/x`, the rule
`PathCacheRule{"/api"}`, an oracle with the epoch as expiration, the clock
fixed at 10 and a `DefaultMaxAge` of 60. -/
theorem rule_match_uses_default_max_age_witness :
    (getCacheableStatus (fun _ _ _ _ => ⟨[], 0, none⟩) (fun _ => 10) ⟨0, []⟩
        ⟨"HEAD", "/api/x", []⟩ 200 [] ⟨60, [.PathCacheRule "/api"]⟩).1
      = .ok ⟨true, 10 + 60, none⟩ :=
  (rule_match_uses_default_max_age (fun _ _ _ _ => ⟨[], 0, none⟩) (fun _ => 10) ⟨0, []⟩
    ⟨"HEAD", "/api/x", []⟩ 200 [] ⟨60, [.PathCacheRule "/api"]⟩ rfl rfl (Or.inl rfl)
    (by decide) ⟨.PathCacheRule "/api", by simp, by decide⟩).1

/-- C6: the decision carries a non-nil error exactly when the oracle returned
one; it is then that same error, with cacheable false, whatever the rules,
the Vary header and the oracle's other results are. -/
theorem error_iff_oracle_error (oracle : Oracle) (clock : Nat → Time) (w : World)
    (req : Request) (statusCode : Int) (respHeaders : Header) (config : Config) :
    ((∃ d, (getCacheableStatus oracle clock w req statusCode respHeaders config).1 = .ok d ∧
        d.err ≠ none) ↔ (oracle req statusCode respHeaders false).err ≠ none) ∧
    (∀ e, (oracle req statusCode respHeaders false).err = some e →
      ∃ d, (getCacheableStatus oracle clock w req statusCode respHeaders config).1 = .ok d ∧
        d.err = some e ∧ d.cacheable = false) := by
  constructor
  · cases he : (oracle req statusCode respHeaders false).err with
    | some e =>
      rw [getCacheableStatus_of_err _ _ _ _ _ _ _ e he]
      simp
    | none =>
      by_cases hr : (oracle req statusCode respHeaders false).reasonsNotToCache = []
      · cases hv : varyIsStar respHeaders with
        | error f =>
          rw [getCacheableStatus_of_vary_fault _ _ _ _ _ _ _ he hr f hv]
          simp
        | ok b =>
          cases b with
          | true =>
            rw [getCacheableStatus_of_vary_star _ _ _ _ _ _ _ he hr hv]
            simp
          | false =>
            by_cases hx :
                clock w.clockReads < (oracle req statusCode respHeaders false).expiration
            · rw [getCacheableStatus_of_explicit _ _ _ _ _ _ _ he hr hv hx]
              simp
            · rw [getCacheableStatus_of_fallback _ _ _ _ _ _ _ he hr hv hx]
              simp
      · rw [getCacheableStatus_of_reasons _ _ _ _ _ _ _ he hr]
        simp
  · intro e he
    rw [getCacheableStatus_of_err _ _ _ _ _ _ _ e he]
    exact ⟨_, rfl, rfl, rfl⟩

/-- C7: when the oracle returns no error and at least one reason not to
cache, the decision is not cacheable and its error is nil, for every rule
list and every oracle expiration. -/
theorem reasons_not_cacheable (oracle : Oracle) (clock : Nat → Time) (w : World)
    (req : Request) (statusCode : Int) (respHeaders : Header) (config : Config)
    (he : (oracle req statusCode respHeaders false).err = none)
    (hr : 1 ≤ (oracle req statusCode respHeaders false).reasonsNotToCache.length) :
    ∃ d, (getCacheableStatus oracle clock w req statusCode respHeaders config).1 = .ok d ∧
      d.cacheable = false ∧ d.err = none := by
  have hr1 : (oracle req statusCode respHeaders false).reasonsNotToCache ≠ [] := by
    intro h
    rw [h] at hr
    exact absurd hr (by decide)
  rw [getCacheableStatus_of_reasons _ _ _ _ _ _ _ he hr1]
  exact ⟨_, rfl, rfl, rfl⟩

/-- Witness of `reasons_not_cacheable`: one reason, a matching path rule and
an oracle expiration after the clock. -/
theorem reasons_not_cacheable_witness :
    ∃ d, (getCacheableStatus (fun _ _ _ _ => ⟨[7], 1000, none⟩) (fun _ => 10) ⟨0, []⟩
        ⟨"GET", "/", []⟩ 200 [] ⟨60, [.PathCacheRule "/"]⟩).1 = .ok d ∧
      d.cacheable = false ∧ d.err = none :=
  reasons_not_cacheable (fun _ _ _ _ => ⟨[7], 1000, none⟩) (fun _ => 10) ⟨0, []⟩
    ⟨"GET", "/", []⟩ 200 [] ⟨60, [.PathCacheRule "/"]⟩ rfl (by decide)

/-- C11 (as stated, refuted): with a matching rule, `DefaultMaxAge` 0 and an
oracle with the epoch as expiration, clock readings 100 then 50 give a
cacheable decision with `expiresAt` 50, before the instant 100 of the
comparison; and a clock that reads the epoch gives a cacheable decision with
`expiresAt` 0, the zero instant. -/
theorem cacheable_expiresAt_can_precede_now :
    (getCacheableStatus (fun _ _ _ _ => ⟨[], 0, none⟩) (fun k => if k = 0 then 100 else 50)
        ⟨0, []⟩ ⟨"GET", "/", []⟩ 200 [] ⟨0, [.PathCacheRule "/"]⟩).1
      = .ok ⟨true, 50, none⟩ ∧
    (50 : Int) < 100 ∧
    (getCacheableStatus (fun _ _ _ _ => ⟨[], 0, none⟩) (fun _ => 0)
        ⟨0, []⟩ ⟨"GET", "/", []⟩ 200 [] ⟨0, [.PathCacheRule "/"]⟩).1
      = .ok ⟨true, 0, none⟩ := by
  decide

/-- C11 (amended): with a non-negative `DefaultMaxAge`, a cacheable decision
carries either the oracle's expiration, then strictly after the clock reading
it was compared with, or `time.Now() + DefaultMaxAge`, then not before the
reading it was computed from. When the clock does not run backwards between
the two readings, `expiresAt` is not before the reading of the comparison;
when the readings are after the epoch, it is after the epoch, so it is not
the zero instant. -/
theorem cacheable_expiresAt_is_real (oracle : Oracle) (clock : Nat → Time) (w : World)
    (req : Request) (statusCode : Int) (respHeaders : Header) (config : Config)
    (hd : 0 ≤ config.DefaultMaxAge) (d : Decision)
    (hres : (getCacheableStatus oracle clock w req statusCode respHeaders config).1 = .ok d)
    (hc : d.cacheable = true) :
    ((d.expiresAt = (oracle req statusCode respHeaders false).expiration ∧
        clock w.clockReads < d.expiresAt) ∨
      (d.expiresAt = clock (w.clockReads + 1) + config.DefaultMaxAge ∧
        clock (w.clockReads + 1) ≤ d.expiresAt)) ∧
    (clock w.clockReads ≤ clock (w.clockReads + 1) → clock w.clockReads ≤ d.expiresAt) ∧
    (0 < clock w.clockReads → 0 < clock (w.clockReads + 1) → 0 < d.expiresAt) := by
  cases he : (oracle req statusCode respHeaders false).err with
  | some e =>
    rw [getCacheableStatus_of_err _ _ _ _ _ _ _ e he] at hres
    have hd1 := Except.ok.inj hres
    subst hd1
    cases hc
  | none =>
    by_cases hr : (oracle req statusCode respHeaders false).reasonsNotToCache = []
    · cases hv : varyIsStar respHeaders with
      | error f =>
        rw [getCacheableStatus_of_vary_fault _ _ _ _ _ _ _ he hr f hv] at hres
        cases hres
      | ok b =>
        cases b with
        | true =>
          rw [getCacheableStatus_of_vary_star _ _ _ _ _ _ _ he hr hv] at hres
          have hd1 := Except.ok.inj hres
          subst hd1
          cases hc
        | false =>
          by_cases hx : clock w.clockReads < (oracle req statusCode respHeaders false).expiration
          · rw [getCacheableStatus_of_explicit _ _ _ _ _ _ _ he hr hv hx] at hres
            have hd1 := Except.ok.inj hres
            subst hd1
            exact ⟨Or.inl ⟨rfl, hx⟩, fun _ => le_of_lt hx, fun h0 _ => lt_trans h0 hx⟩
          · rw [getCacheableStatus_of_fallback _ _ _ _ _ _ _ he hr hv hx] at hres
            have hd1 := Except.ok.inj hres
            subst hd1
            refine ⟨Or.inr ⟨rfl, ?_⟩, fun hmono => ?_, fun _ h1 => ?_⟩
            · exact le_add_of_nonneg_right hd
            · exact le_trans hmono (le_add_of_nonneg_right hd)
            · exact add_pos_of_pos_of_nonneg h1 hd
    · rw [getCacheableStatus_of_reasons _ _ _ _ _ _ _ he hr] at hres
      have hd1 := Except.ok.inj hres
      subst hd1
      cases hc

/-- Witness of `cacheable_expiresAt_is_real`: a matching path rule, an oracle
with the epoch as expiration, clock readings 10 then 11, `DefaultMaxAge` 60:
the decision is cacheable with `expiresAt` 71. -/
theorem cacheable_expiresAt_is_real_witness :
    (getCacheableStatus (fun _ _ _ _ => ⟨[], 0, none⟩) (fun k => if k = 0 then 10 else 11)
        ⟨0, []⟩ ⟨"GET", "/", []⟩ 200 [] ⟨60, [.PathCacheRule "/"]⟩).1
      = .ok ⟨true, 71, none⟩ ∧
    (((71 : Int) = 0 ∧ (10 : Int) < 71) ∨ ((71 : Int) = 11 + 60 ∧ (11 : Int) ≤ 71)) ∧
    ((10 : Int) ≤ 11 → (10 : Int) ≤ 71) ∧
    ((0 : Int) < 10 → (0 : Int) < 11 → (0 : Int) < 71) :=
  ⟨by decide,
    cacheable_expiresAt_is_real (fun _ _ _ _ => ⟨[], 0, none⟩)
      (fun k => if k = 0 then 10 else 11) ⟨0, []⟩
      ⟨"GET", "/", []⟩ 200 [] ⟨60, [.PathCacheRule "/"]⟩ (by decide) ⟨true, 71, none⟩
      (by decide) rfl⟩

/-- C12: the whole result of `getCacheableStatus` (cacheable, expiresAt,
error, and the effects) is the same for every reordering of the rule list. -/
theorem decision_invariant_under_rule_order (oracle : Oracle) (clock : Nat → Time) (w : World)
    (req : Request) (statusCode : Int) (respHeaders : Header) (maxAge : Duration)
    (rules rules2 : List CacheRule) (hp : rules.Perm rules2) :
    getCacheableStatus oracle clock w req statusCode respHeaders ⟨maxAge, rules⟩
      = getCacheableStatus oracle clock w req statusCode respHeaders ⟨maxAge, rules2⟩ := by
  have hany : anyCacheRulesMatches req statusCode respHeaders rules
      = anyCacheRulesMatches req statusCode respHeaders rules2 := by
    rw [Bool.eq_iff_iff, anyCacheRulesMatches_iff, anyCacheRulesMatches_iff]
    constructor
    · rintro ⟨rule, hmem, hrule⟩
      exact ⟨rule, hp.mem_iff.mp hmem, hrule⟩
    · rintro ⟨rule, hmem, hrule⟩
      exact ⟨rule, hp.mem_iff.mpr hmem, hrule⟩
  simp only [getCacheableStatus, hany]

/-- Witness of `decision_invariant_under_rule_order`: a header rule and a
path rule, swapped. -/
theorem decision_invariant_under_rule_order_witness :
    getCacheableStatus (fun _ _ _ _ => ⟨[], 0, none⟩) (fun _ => 10) ⟨0, []⟩
        ⟨"GET", "/api", []⟩ 200 [] ⟨60, [.HeaderCacheRule "X-Cache" ["yes"], .PathCacheRule "/"]⟩
      = getCacheableStatus (fun _ _ _ _ => ⟨[], 0, none⟩) (fun _ => 10) ⟨0, []⟩
        ⟨"GET", "/api", []⟩ 200 [] ⟨60, [.PathCacheRule "/", .HeaderCacheRule "X-Cache" ["yes"]]⟩ :=
  decision_invariant_under_rule_order (fun _ _ _ _ => ⟨[], 0, none⟩) (fun _ => 10) ⟨0, []⟩
    ⟨"GET", "/api", []⟩ 200 [] 60 [.HeaderCacheRule "X-Cache" ["yes"], .PathCacheRule "/"]
    [.PathCacheRule "/", .HeaderCacheRule "X-Cache" ["yes"]] (List.Perm.swap _ _ _)

/-- C13 (the code at the failing input): with the key `Vary` present and an
empty list of values, `varyHeaders[0]` is out of range: the call panics
instead of returning a decision, after the oracle call and before any clock
reading. -/
theorem vary_without_value_panics :
    getCacheableStatus (fun _ _ _ _ => ⟨[], 1000, none⟩) (fun _ => 10) ⟨0, []⟩
        ⟨"GET", "/", []⟩ 200 [("Vary", [])] ⟨60, []⟩
      = (.error .indexOutOfRange, ⟨0, [⟨⟨"GET", "/", []⟩, 200, [("Vary", [])], false⟩]⟩) := by
  decide

/-- C14 (as stated, refuted): the clock is read twice on the fallback path.
With readings 100 then 105 and `DefaultMaxAge` 60, an oracle expiration of
103 is accepted as explicit (it is compared with the first reading, 100, and
one reading is taken), while with an oracle expiration of 100 the fallback
expiration is 165, the second reading plus 60, not 100 + 60, and two readings
are taken. -/
theorem clock_read_twice_on_fallback :
    getCacheableStatus (fun _ _ _ _ => ⟨[], 103, none⟩) (fun k => if k = 0 then 100 else 105)
        ⟨0, []⟩ ⟨"GET", "/", []⟩ 200 [] ⟨60, [.PathCacheRule "/"]⟩
      = (.ok ⟨true, 103, none⟩, ⟨1, [⟨⟨"GET", "/", []⟩, 200, [], false⟩]⟩) ∧
    getCacheableStatus (fun _ _ _ _ => ⟨[], 100, none⟩) (fun k => if k = 0 then 100 else 105)
        ⟨0, []⟩ ⟨"GET", "/", []⟩ 200 [] ⟨60, [.PathCacheRule "/"]⟩
      = (.ok ⟨true, 165, none⟩, ⟨2, [⟨⟨"GET", "/", []⟩, 200, [], false⟩]⟩) ∧
    (165 : Int) ≠ 100 + 60 := by
  decide

/-- C14 (amended): on the fallback path (no oracle error, no reason, Vary
check passed, oracle expiration not strictly after the first clock reading
`t`) the function reads the clock a second time and returns
`expiresAt = t2 + DefaultMaxAge` for that second reading `t2`; this is
`t + DefaultMaxAge` when the two readings are the same instant. -/
theorem fallback_uses_second_reading (oracle : Oracle) (clock : Nat → Time) (w : World)
    (req : Request) (statusCode : Int) (respHeaders : Header) (config : Config)
    (he : (oracle req statusCode respHeaders false).err = none)
    (hr : (oracle req statusCode respHeaders false).reasonsNotToCache = [])
    (hv : respHeaders.lookup "Vary" = none ∨
      ∃ v rest, respHeaders.lookup "Vary" = some (v :: rest) ∧ v ≠ "*")
    (hx : ¬ clock w.clockReads < (oracle req statusCode respHeaders false).expiration) :
    ∃ d, (getCacheableStatus oracle clock w req statusCode respHeaders config).1 = .ok d ∧
      d.expiresAt = clock (w.clockReads + 1) + config.DefaultMaxAge ∧
      (getCacheableStatus oracle clock w req statusCode respHeaders config).2.clockReads
        = w.clockReads + 2 ∧
      (clock (w.clockReads + 1) = clock w.clockReads →
        d.expiresAt = clock w.clockReads + config.DefaultMaxAge) := by
  rw [getCacheableStatus_of_fallback _ _ _ _ _ _ _ he hr
    (varyIsStar_of_not_star respHeaders hv) hx]
  exact ⟨_, rfl, rfl, rfl, fun h => by rw [h]⟩

/-- Witness of `fallback_uses_second_reading`: clock readings 100 then 105,
an oracle expiration of 100, `DefaultMaxAge` 60. -/
theorem fallback_uses_second_reading_witness :
    ∃ d, (getCacheableStatus (fun _ _ _ _ => ⟨[], 100, none⟩)
        (fun k => if k = 0 then 100 else 105) ⟨0, []⟩ ⟨"GET", "/", []⟩ 200 []
        ⟨60, [.PathCacheRule "/"]⟩).1 = .ok d ∧
      d.expiresAt = 105 + 60 ∧
      (getCacheableStatus (fun _ _ _ _ => ⟨[], 100, none⟩)
        (fun k => if k = 0 then 100 else 105) ⟨0, []⟩ ⟨"GET", "/", []⟩ 200 []
        ⟨60, [.PathCacheRule "/"]⟩).2.clockReads = 0 + 2 ∧
      ((105 : Int) = 100 → d.expiresAt = 100 + 60) :=
  fallback_uses_second_reading (fun _ _ _ _ => ⟨[], 100, none⟩)
    (fun k => if k = 0 then 100 else 105) ⟨0, []⟩ ⟨"GET", "/", []⟩ 200 []
    ⟨60, [.PathCacheRule "/"]⟩ rfl rfl (Or.inl rfl) (by decide)

/-- C15: the oracle is called exactly once, with the request, the status
code, the response headers and the flag false; two oracles that return the
same result for that call give the same result of `getCacheableStatus`. -/
theorem oracle_consulted_with_flag_false (oracle1 oracle2 : Oracle) (clock : Nat → Time)
    (w : World) (req : Request) (statusCode : Int) (respHeaders : Header) (config : Config)
    (ho : oracle1 req statusCode respHeaders false = oracle2 req statusCode respHeaders false) :
    getCacheableStatus oracle1 clock w req statusCode respHeaders config
        = getCacheableStatus oracle2 clock w req statusCode respHeaders config ∧
    (getCacheableStatus oracle1 clock w req statusCode respHeaders config).2.oracleCalls
      = w.oracleCalls ++ [⟨req, statusCode, respHeaders, false⟩] := by
  refine ⟨?_, getCacheableStatus_oracleCalls _ _ _ _ _ _ _⟩
  simp only [getCacheableStatus, ho]

/-- Witness of `oracle_consulted_with_flag_false`: two oracles that differ
only when the flag is true. -/
theorem oracle_consulted_with_flag_false_witness :
    getCacheableStatus (fun _ _ _ b => if b then ⟨[1], 0, none⟩ else ⟨[], 1000, none⟩)
        (fun _ => 10) ⟨0, []⟩ ⟨"GET", "/", []⟩ 200 [] ⟨60, []⟩
      = getCacheableStatus (fun _ _ _ b => if b then ⟨[], 5, some "e"⟩ else ⟨[], 1000, none⟩)
        (fun _ => 10) ⟨0, []⟩ ⟨"GET", "/", []⟩ 200 [] ⟨60, []⟩ ∧
    (getCacheableStatus (fun _ _ _ b => if b then ⟨[1], 0, none⟩ else ⟨[], 1000, none⟩)
        (fun _ => 10) ⟨0, []⟩ ⟨"GET", "/", []⟩ 200 [] ⟨60, []⟩).2.oracleCalls
      = [] ++ [⟨⟨"GET", "/", []⟩, 200, [], false⟩] :=
  oracle_consulted_with_flag_false
    (fun _ _ _ b => if b then ⟨[1], 0, none⟩ else ⟨[], 1000, none⟩)
    (fun _ _ _ b => if b then ⟨[], 5, some "e"⟩ else ⟨[], 1000, none⟩)
    (fun _ => 10) ⟨0, []⟩ ⟨"GET", "/", []⟩ 200 [] ⟨60, []⟩ rfl

/-- C16: under a fixed clock, two calls with the same request, status code,
response headers and policy and the same oracle result return the same
decision (cacheable, expiresAt and error), whatever effects came before each
call; in particular a second call made right after the first one returns
what the first returned. -/
theorem deterministic_under_fixed_clock (oracle1 oracle2 : Oracle) (clock1 clock2 : Nat → Time)
    (w1 w2 : World) (req : Request) (statusCode : Int) (respHeaders : Header)
    (config : Config) (now : Time)
    (ho : oracle1 req statusCode respHeaders false = oracle2 req statusCode respHeaders false)
    (hc1 : ∀ k, clock1 k = now) (hc2 : ∀ k, clock2 k = now) :
    (getCacheableStatus oracle1 clock1 w1 req statusCode respHeaders config).1
        = (getCacheableStatus oracle2 clock2 w2 req statusCode respHeaders config).1 ∧
    (getCacheableStatus oracle1 clock1
        (getCacheableStatus oracle1 clock1 w1 req statusCode respHeaders config).2
        req statusCode respHeaders config).1
      = (getCacheableStatus oracle1 clock1 w1 req statusCode respHeaders config).1 := by
  constructor
  · simp only [getCacheableStatus_decision, ho, hc1, hc2]
  · simp only [getCacheableStatus_decision, hc1]

/-- Witness of `deterministic_under_fixed_clock`: the clock fixed at 10, the
second call made after a first one. -/
theorem deterministic_under_fixed_clock_witness :
    (getCacheableStatus (fun _ _ _ _ => ⟨[], 0, none⟩) (fun _ => 10) ⟨0, []⟩
        ⟨"GET", "/", []⟩ 200 [] ⟨60, [.PathCacheRule "/"]⟩).1
      = (getCacheableStatus (fun _ _ _ _ => ⟨[], 0, none⟩) (fun _ => 10) ⟨2, []⟩
        ⟨"GET", "/", []⟩ 200 [] ⟨60, [.PathCacheRule "/"]⟩).1 :=
  (deterministic_under_fixed_clock (fun _ _ _ _ => ⟨[], 0, none⟩)
    (fun _ _ _ _ => ⟨[], 0, none⟩) (fun _ => 10) (fun _ => 10) ⟨0, []⟩ ⟨2, []⟩
    ⟨"GET", "/", []⟩ 200 [] ⟨60, [.PathCacheRule "/"]⟩ 10 rfl (fun _ => rfl) (fun _ => rfl)).1

/-- C17: the rule list acts on the cacheable flag only, and monotonically.
For any two rule lists the call either panics in both cases or returns in
both with the same `expiresAt` and the same error; when every rule of the
first list is in the second, a cacheable decision stays cacheable; and
`expiresAt` is, past the three guards, the oracle's expiration or the second
clock reading plus `DefaultMaxAge`, and the first clock reading otherwise,
whatever the rules. -/
theorem decision_monotone_in_rules (oracle : Oracle) (clock : Nat → Time) (w : World)
    (req : Request) (statusCode : Int) (respHeaders : Header) (maxAge : Duration)
    (rules rules2 : List CacheRule) :
    ((getCacheableStatus oracle clock w req statusCode respHeaders ⟨maxAge, rules⟩).1.map
        (fun d => (d.expiresAt, d.err))
      = (getCacheableStatus oracle clock w req statusCode respHeaders ⟨maxAge, rules2⟩).1.map
        (fun d => (d.expiresAt, d.err))) ∧
    (rules ⊆ rules2 → ∀ d,
      (getCacheableStatus oracle clock w req statusCode respHeaders ⟨maxAge, rules⟩).1
        = .ok d → d.cacheable = true →
      (getCacheableStatus oracle clock w req statusCode respHeaders ⟨maxAge, rules2⟩).1
        = .ok ⟨true, d.expiresAt, d.err⟩) ∧
    (∀ d,
      (getCacheableStatus oracle clock w req statusCode respHeaders ⟨maxAge, rules⟩).1
        = .ok d →
      ((oracle req statusCode respHeaders false).err = none →
        (oracle req statusCode respHeaders false).reasonsNotToCache = [] →
        varyIsStar respHeaders = .ok false →
        d.expiresAt =
          if clock w.clockReads < (oracle req statusCode respHeaders false).expiration then
            (oracle req statusCode respHeaders false).expiration
          else clock (w.clockReads + 1) + maxAge) ∧
      ((oracle req statusCode respHeaders false).err ≠ none ∨
          (oracle req statusCode respHeaders false).reasonsNotToCache ≠ [] ∨
          varyIsStar respHeaders = .ok true →
        d.expiresAt = clock w.clockReads)) := by
  simp only [getCacheableStatus_decision]
  refine ⟨decisionFrom_map_any _ _ _ _ _ _ _, fun hsub d hd hc => ?_, fun d hd => ?_⟩
  · refine decisionFrom_mono _ _ _ _ _ _ _ ?_ d hd hc
    intro hm
    obtain ⟨rule, hmem, hrule⟩ := (anyCacheRulesMatches_iff _ _ _ _).mp hm
    exact (anyCacheRulesMatches_iff _ _ _ _).mpr ⟨rule, hsub hmem, hrule⟩
  · exact decisionFrom_expiresAt _ _ _ _ _ _ d hd

/-- C18: only the first value of `Vary` and of `Accept-Ranges` is looked at.
A response whose first Vary value is not `*` passes the Vary step even if a
later value is `*` (the decision is then the rule loop or the explicit
expiration), and a GET or HEAD request whose first Accept-Ranges value is
empty passes `shouldUseCache` even if a later value is not. -/
theorem only_first_header_value_checked :
    (∀ (oracle : Oracle) (clock : Nat → Time) (w : World) (req : Request) (statusCode : Int)
        (respHeaders : Header) (config : Config) (v : String) (rest : List String),
      v ≠ "*" → respHeaders.lookup "Vary" = some (v :: rest) →
      (oracle req statusCode respHeaders false).err = none →
      (oracle req statusCode respHeaders false).reasonsNotToCache = [] →
      varyIsStar respHeaders = .ok false ∧
      ∃ d, (getCacheableStatus oracle clock w req statusCode respHeaders config).1 = .ok d ∧
        d.cacheable = (anyCacheRulesMatches req statusCode respHeaders config.CacheRules ||
          decide (clock w.clockReads < (oracle req statusCode respHeaders false).expiration))) ∧
    (∀ (req : Request) (rest : List String),
      req.Method = "GET" ∨ req.Method = "HEAD" →
      req.Header.lookup "Accept-Ranges" = some ("" :: rest) →
      shouldUseCache req = true) ∧
    (getCacheableStatus (fun _ _ _ _ => ⟨[], 1000, none⟩) (fun _ => 10) ⟨0, []⟩
        ⟨"GET", "/", []⟩ 200 [("Vary", ["Accept-Encoding", "*"])] ⟨60, []⟩).1
      = .ok ⟨true, 1000, none⟩ ∧
    shouldUseCache ⟨"GET", "/", [("Accept-Ranges", ["", "bytes"])]⟩ = true := by
  refine ⟨?_, ?_, by decide, by decide⟩
  · intro oracle clock w req statusCode respHeaders config v rest hne hl he hr
    have hv : varyIsStar respHeaders = .ok false :=
      varyIsStar_of_not_star respHeaders (Or.inr ⟨v, rest, hl, hne⟩)
    refine ⟨hv, ?_⟩
    rw [getCacheableStatus_decision]
    simp only [decisionFrom, he, hr, hv, if_true]
    exact ⟨_, rfl, rfl⟩
  · intro req rest hm hl
    have hg : req.Header.Get "accept-ranges" = "" := by
      apply Get_eq_of_lookup_cons req.Header "accept-ranges" "" rest
      rw [canonical_accept_ranges]
      exact hl
    unfold shouldUseCache
    rcases hm with hm | hm
    · simp [hm, hg]
    · simp [hm, hg]

end CaddyCache
